import Mathlib

/-!
Shallow embedding of `src/name.py` (PubMed paper fetcher) and verification of
its specification claims.

The script performs two HTTP GETs (search, then summary), reshapes the JSON
responses into a list of six-field "Paper Record" dictionaries, and either
prints them or writes them as CSV.  We model:

  * JSON values (`Json`), with Python `dict.get`-with-default semantics
    (`dictGet`, raising `AttributeError` on non-dicts), Python truthiness
    (`Json.truthy`) and Python string-iteration as used by `",".join`
    (`iterStrings`);
  * the two HTTP requests and their responses (`HttpRequest`, `Response`,
    `World`), with `requests.Response.raise_for_status` semantics;
  * `fetch_papers`, `save_to_csv` and `main`, where `fetch_papers` also
    returns the list of HTTP requests it issued, and the file system is
    an explicit `FS` value threaded through `save_to_csv` and `main`;
  * the `csv` module's `DictWriter` with `QUOTE_MINIMAL` quoting, plus a
    `csv.reader`-style parser used to state the CSV round-trip property.

Machine integers do not occur; all strings are exact.  Floating-point JSON
numbers are not needed by any claim and are modelled as integers.
-/

/-- A JSON value, as produced by `response.json()`.  Objects are modelled as
insertion-ordered association lists (Python dicts preserve insertion order
and have unique keys).  Numbers are modelled as integers: no claim touches
numeric payloads. -/
inductive Json where
  | null
  | bool (b : Bool)
  | num (n : Int)
  | str (s : String)
  | arr (elems : List Json)
  | obj (fields : List (String × Json))

/-- Python type name of a JSON value, used only in error messages. -/
def Json.pyType : Json → String
  | .null => "NoneType"
  | .bool _ => "bool"
  | .num _ => "int"
  | .str _ => "str"
  | .arr _ => "list"
  | .obj _ => "dict"

/-- Python truthiness of a JSON value (`if not ids:` in the source). -/
def Json.truthy : Json → Bool
  | .null => false
  | .bool b => b
  | .num n => n != 0
  | .str s => s != ""
  | .arr elems => !elems.isEmpty
  | .obj fields => !fields.isEmpty

/-- `d.get(key, default)` in Python: association-list lookup with a default
when `d` is a dict, `AttributeError` otherwise (the source calls `.get` on
values taken out of parsed JSON without checking their type). -/
def dictGet (j : Json) (key : String) (default : Json) : Except String Json :=
  match j with
  | .obj fields => .ok ((List.lookup key fields).getD default)
  | _ => .error ("AttributeError: " ++ j.pyType ++ " object has no attribute get")

/-- Sequencing of a fallible operation over a list, mirroring the source's
`for id in ids: papers.append(...)` loop: stops at the first error. -/
def exceptMap (f : α → Except String β) : List α → Except String (List β)
  | [] => .ok []
  | x :: xs =>
    match f x with
    | .error e => .error e
    | .ok y =>
      match exceptMap f xs with
      | .error e => .error e
      | .ok ys => .ok (y :: ys)

/-- Iterating a JSON value as strings, as `",".join(ids)` (and the
subsequent `for id in ids`) does: a list must contain only strings
(`TypeError` otherwise), a string iterates its characters, a dict iterates
its keys, and other values are not iterable / not joinable. -/
def iterStrings : Json → Except String (List String)
  | .arr elems =>
    exceptMap
      (fun j => match j with
        | .str s => .ok s
        | j => .error ("TypeError: sequence item: expected str instance, " ++ j.pyType ++ " found"))
      elems
  | .str s => .ok (s.data.map (fun c => String.mk [c]))
  | .obj fields => .ok (fields.map Prod.fst)
  | j => .error ("TypeError: can only join an iterable, not " ++ j.pyType)

/-- An HTTP GET request: URL plus query parameters, in the order the source
builds them.  `requests` renders the integer `10` as the string `"10"`. -/
structure HttpRequest where
  url : String
  params : List (String × String)
deriving DecidableEq

/-- An HTTP response: status code and the result of `response.json()`
(`.error` models a JSON decode failure). -/
structure Response where
  status : Nat
  jsonBody : Except String Json

/-- The external world seen by one run: the response each of the two GET
endpoints would return. -/
structure World where
  searchResp : Response
  summaryResp : Response

def base_url : String := "https://eutils.ncbi.nlm.nih.gov/entrez/eutils/esearch.fcgi"

def details_url : String := "https://eutils.ncbi.nlm.nih.gov/entrez/eutils/esummary.fcgi"

/-- The search request built from `search_params` (lines 18-24). -/
def searchRequest (query : String) : HttpRequest :=
  ⟨base_url, [("db", "pubmed"), ("term", query), ("retmax", "10"), ("retmode", "json")]⟩

/-- The summary request built from `details_params` (lines 33-38). -/
def summaryRequest (ids : List String) : HttpRequest :=
  ⟨details_url, [("db", "pubmed"), ("id", String.intercalate "," ids), ("retmode", "json")]⟩

/-- `Response.raise_for_status`: raises `HTTPError` exactly for status codes
400-599 (client and server errors), as the `requests` library does. -/
def raise_for_status (r : Response) : Except String Unit :=
  if 400 ≤ r.status ∧ r.status ≤ 499 then
    .error (toString r.status ++ " Client Error for url")
  else if 500 ≤ r.status ∧ r.status ≤ 599 then
    .error (toString r.status ++ " Server Error for url")
  else .ok ()

/-- A Paper Record: the dict literal of lines 45-52, an insertion-ordered
mapping from field names to JSON values. -/
abbrev Paper : Type := List (String × Json)

/-- `search_data.get("esearchresult", {}).get("idlist", [])` (line 28). -/
def extractIds (search_data : Json) : Except String Json :=
  match dictGet search_data "esearchresult" (Json.obj []) with
  | .error e => .error e
  | .ok er => dictGet er "idlist" (Json.arr [])

/-- One iteration of the loop at lines 43-52: look up the summary object
for `id` (default `{}`), then build the six-field record with
`.get("title", "")`, `.get("pubdate", "")` and the three constant
placeholder strings. -/
def mkPaper (details_data : Json) (id : String) : Except String Paper :=
  match dictGet details_data "result" (Json.obj []) with
  | .error e => .error e
  | .ok resultObj =>
  match dictGet resultObj id (Json.obj []) with
  | .error e => .error e
  | .ok summary =>
  match dictGet summary "title" (Json.str "") with
  | .error e => .error e
  | .ok title =>
  match dictGet summary "pubdate" (Json.str "") with
  | .error e => .error e
  | .ok pubdate =>
    .ok [("PubmedID", Json.str id),
         ("Title", title),
         ("Publication Date", pubdate),
         ("Non-academic Author(s)", Json.str "Heuristic not implemented"),
         ("Company Affiliation(s)", Json.str "Heuristic not implemented"),
         ("Corresponding Author Email", Json.str "Not available")]

/-- `fetch_papers` (lines 13-53).  Returns the list of HTTP requests issued
(in order) together with the returned paper list or the raised exception.
The steps appear in source order: search GET, `raise_for_status`,
`.json()`, idlist extraction, the `if not ids: return []` early return,
`",".join(ids)` (which fixes the iteration as strings), summary GET,
`raise_for_status`, `.json()`, then the record-building loop. -/
def fetch_papers (query : String) (w : World) :
    List HttpRequest × Except String (List Paper) :=
  let req1 := searchRequest query
  match raise_for_status w.searchResp with
  | .error e => ([req1], .error e)
  | .ok _ =>
  match w.searchResp.jsonBody with
  | .error e => ([req1], .error e)
  | .ok search_data =>
  match extractIds search_data with
  | .error e => ([req1], .error e)
  | .ok idsJson =>
  if idsJson.truthy then
    match iterStrings idsJson with
    | .error e => ([req1], .error e)
    | .ok ids =>
      let req2 := summaryRequest ids
      match raise_for_status w.summaryResp with
      | .error e => ([req1, req2], .error e)
      | .ok _ =>
      match w.summaryResp.jsonBody with
      | .error e => ([req1, req2], .error e)
      | .ok details_data => ([req1, req2], exceptMap (mkPaper details_data) ids)
  else ([req1], .ok [])

/-! ## CSV writing (`save_to_csv`, lines 56-64) -/

/-- `repr()` of a JSON value as Python renders it.  Only reachable through
`str()` of a non-string cell value inside a list or dict, which no Paper
Record built by this program contains; string escaping inside `repr` is not
modelled beyond quoting. -/
def pyRepr : Json → String
  | .null => "None"
  | .bool b => if b then "True" else "False"
  | .num n => toString n
  | .str s => "'" ++ s ++ "'"
  | .arr elems =>
      "[" ++ String.intercalate ", " (elems.attach.map (fun x => pyRepr x.1)) ++ "]"
  | .obj fields =>
      "\x7b" ++
        String.intercalate ", "
          (fields.attach.map (fun x => "'" ++ x.1.1 ++ "': " ++ pyRepr x.1.2)) ++
      "\x7d"
decreasing_by
  · have := List.sizeOf_lt_of_mem x.2
    simp only [Json.arr.sizeOf_spec]
    omega
  · have h1 := List.sizeOf_lt_of_mem x.2
    have h2 : sizeOf x.1.2 < sizeOf x.1 := by
      obtain ⟨a, b⟩ := x.1
      simp only [Prod.mk.sizeOf_spec]
      omega
    simp only [Json.obj.sizeOf_spec]
    omega

/-- `str()` of a JSON value: the string itself for strings, `repr` for
everything else (matches Python for `None`, booleans, ints, lists, dicts). -/
def pyStr : Json → String
  | .str s => s
  | j => pyRepr j

/-- The fixed `fieldnames` list passed to `csv.DictWriter` (lines 58-62). -/
def fieldnames : List String :=
  ["PubmedID", "Title", "Publication Date",
   "Non-academic Author(s)", "Company Affiliation(s)",
   "Corresponding Author Email"]

/-- `DictWriter._dict_to_list`: rejects rows with keys outside `fieldnames`
(`ValueError`), otherwise yields the values in `fieldnames` order with the
default restval `None` (here `none`) for missing keys. -/
def dictToList (row : Paper) : Except String (List (Option Json)) :=
  if row.all (fun kv => fieldnames.contains kv.1) then
    .ok (fieldnames.map (fun k => List.lookup k row))
  else
    .error "ValueError: dict contains fields not in fieldnames"

/-- How `csv.writer` renders one cell: `None` (including the restval for a
missing key) becomes the empty string, strings are written as-is, any other
value is passed through `str()`. -/
def csvCellStr : Option Json → String
  | none => ""
  | some Json.null => ""
  | some (Json.str s) => s
  | some j => pyStr j

/-- Characters that force quoting under `QUOTE_MINIMAL`: the delimiter, the
quote character, and the characters of the `\r\n` line terminator. -/
def needsQuote (c : Char) : Bool :=
  c = ',' || c = '"' || c = '\r' || c = '\n'

/-- Double every quote character (the `QUOTE_MINIMAL` escape). -/
def escapeQuotes : List Char → List Char
  | [] => []
  | c :: cs => if c = '"' then '"' :: '"' :: escapeQuotes cs else c :: escapeQuotes cs

/-- Render one CSV field: quoted with doubled quotes when it contains a
special character, verbatim otherwise. -/
def encodeFieldChars (f : List Char) : List Char :=
  if f.any needsQuote then '"' :: (escapeQuotes f ++ ['"']) else f

/-- Comma-join the encoded fields of one record. -/
def joinComma : List (List Char) → List Char
  | [] => []
  | [f] => encodeFieldChars f
  | f :: fs => encodeFieldChars f ++ ',' :: joinComma fs

/-- Render one CSV record, terminated by the default `\r\n`. -/
def encodeRecordChars (cells : List (List Char)) : List Char :=
  joinComma cells ++ ['\r', '\n']

/-- Render a whole CSV file from its records. -/
def encodeRows (rows : List (List (List Char))) : List Char :=
  (rows.map encodeRecordChars).flatten

/-- `writer.writerows(papers)` writes row by row and raises at the first
bad row, leaving the earlier rows written: returns the successfully
rendered rows together with the error that interrupted the loop, if any. -/
def rowsUntilError : List Paper → List (List String) × Option String
  | [] => ([], none)
  | p :: ps =>
    match dictToList p with
    | .error e => ([], some e)
    | .ok cells =>
      let rest := rowsUntilError ps
      ((cells.map csvCellStr) :: rest.1, rest.2)

/-- The file content produced for a given header row and data rows. -/
def renderCsv (rows : List (List String)) : String :=
  String.mk (encodeRows (rows.map (fun r => r.map String.data)))

/-- The file system: which paths `open(path, "w")` can open for writing,
and the current content of each path. -/
structure FS where
  writable : String → Bool
  content : String → Option String

/-- `save_to_csv` (lines 56-64): opens `filename` for writing (truncating;
fails when the path is unwritable), writes the header, then the rows until
the first bad row.  Returns the resulting file system together with the
raised exception, if any: an exception mid-write still leaves the header
and earlier rows in the file, as the buffered `with open` block flushes on
exit. -/
def save_to_csv (papers : List Paper) (filename : String) (fs : FS) :
    FS × Except String Unit :=
  if fs.writable filename then
    let written := rowsUntilError papers
    let contentStr := renderCsv (fieldnames :: written.1)
    ({ fs with content := fun p => if p = filename then some contentStr else fs.content p },
     match written.2 with
     | none => .ok ()
     | some e => .error e)
  else
    (fs, .error ("[Errno 13] Permission denied: " ++ filename))

/-! ## A `csv.reader`-style parser, used to state the round-trip property -/

/-- Parse the body of a quoted field (the opening quote already consumed):
a doubled quote contributes one literal quote, a single quote closes the
field, end of input without a closing quote is an error. -/
def parseQuotedBody : List Char → Option (List Char × List Char)
  | [] => none
  | c :: rest =>
    if c = '"' then
      match rest with
      | [] => some ([], [])
      | c2 :: rest2 =>
        if c2 = '"' then
          match parseQuotedBody rest2 with
          | none => none
          | some (f, r) => some ('"' :: f, r)
        else some ([], rest)
    else
      match parseQuotedBody rest with
      | none => none
      | some (f, r) => some (c :: f, r)

/-- A character that does not end an unquoted field. -/
def csvPlain (c : Char) : Bool :=
  !(c = ',' || c = '\r' || c = '\n')

/-- Parse one field: quoted when it starts with a quote, otherwise the
longest run of plain characters. -/
def parseField : List Char → Option (List Char × List Char)
  | [] => some ([], [])
  | c :: rest =>
    if c = '"' then parseQuotedBody rest
    else some ((c :: rest).takeWhile csvPlain, (c :: rest).dropWhile csvPlain)

/-- Parse one record: comma-separated fields ended by `\r\n` or by the end
of input.  `fuel` bounds the number of fields. -/
def parseRecordAux : Nat → List Char → Option (List (List Char) × List Char)
  | 0, _ => none
  | fuel + 1, cs =>
    match parseField cs with
    | none => none
    | some (f, rest) =>
      match rest with
      | [] => some ([f], [])
      | c :: r =>
        if c = ',' then
          match parseRecordAux fuel r with
          | none => none
          | some (fs, r2) => some (f :: fs, r2)
        else if c = '\r' then
          match r with
          | [] => none
          | c2 :: r2 => if c2 = '\n' then some ([f], r2) else none
        else none

/-- Parse a sequence of records until the input is exhausted.  `fuel`
bounds the number of records. -/
def parseRowsAux : Nat → List Char → Option (List (List (List Char)))
  | 0, _ => none
  | fuel + 1, cs =>
    if cs.isEmpty then some []
    else
      match parseRecordAux (cs.length + 1) cs with
      | none => none
      | some (r, rest) =>
        match parseRowsAux fuel rest with
        | none => none
        | some rs => some (r :: rs)

/-- Parse a CSV file into its records of string fields, as
`list(csv.reader(f))` over a file opened with `newline=""` yields them. -/
def parseCsv (s : String) : Option (List (List String)) :=
  match parseRowsAux (s.data.length + 1) s.data with
  | none => none
  | some rows => some (rows.map (fun r => r.map (fun cs => String.mk cs)))

/-! ## The entry point (`main`, lines 67-96) -/

/-- The two logger call levels used by the script. -/
inductive LogLevel where
  | info
  | error
deriving DecidableEq

/-- The parsed CLI arguments: the required positional query, the optional
`-f` (`--file`) output path and the `-d` (`--debug`) flag. -/
structure Args where
  query : String
  file : Option String
  debug : Bool

/-- `if args.file:` — Python truthiness of the optional path: `None` and
the empty string are falsy. -/
def fileArgTruthy : Option String → Bool
  | none => false
  | some s => s != ""

/-- The observable outcome of one run of `main`: the logger level set by
the debug flag (`logging.DEBUG = 10`, `logging.INFO = 20`), the log lines
emitted, the records printed to stdout, the resulting file system, and the
process exit code. -/
structure RunResult where
  loggerLevel : Nat
  logs : List (LogLevel × String)
  printed : List Paper
  fs : FS
  exitCode : Nat

/-- `main` (lines 67-96), after `argparse` has produced `args`: sets the
logger level from the debug flag, then runs the `try` block — fetch; on an
empty result log and return; otherwise save to CSV when a truthy file
argument was given, else print each record — with the single `except`
handler logging any raised exception.  The script never sets an exit code,
so every run exits with 0.  (Namespaced because `main` is reserved at the
top level in Lean.) -/
def Script.main (args : Args) (w : World) (fs0 : FS) : RunResult :=
  let lvl := if args.debug then 10 else 20
  let log0 := [(LogLevel.info, "Fetching papers for query: " ++ args.query)]
  match (fetch_papers args.query w).2 with
  | .error e =>
      ⟨lvl, log0 ++ [(LogLevel.error, "An error occurred: " ++ e)], [], fs0, 0⟩
  | .ok papers =>
    if papers.isEmpty then
      ⟨lvl, log0 ++ [(LogLevel.info, "No papers found for the given query.")], [], fs0, 0⟩
    else if fileArgTruthy args.file then
      let fn := args.file.getD ""
      match save_to_csv papers fn fs0 with
      | (fs1, .error e) =>
          ⟨lvl, log0 ++ [(LogLevel.error, "An error occurred: " ++ e)], [], fs1, 0⟩
      | (fs1, .ok _) =>
          ⟨lvl, log0 ++ [(LogLevel.info, "Results saved to " ++ fn)], [], fs1, 0⟩
    else
      ⟨lvl, log0, papers, fs0, 0⟩

/-- The string content of a JSON string (empty for non-strings); the shape
in which the CSV round-trip reproduces a record's fields. -/
def strVal : Json → String
  | .str s => s
  | _ => ""

/-- The six field values of a Paper Record, as literal strings, in record
order. -/
def paperFields (p : Paper) : List String :=
  p.map (fun kv => strVal kv.2)

/-! ## Concrete example data (the spec's worked example: query `"cancer"`,
idlist `["111", "222"]`) used by the witnesses -/

def exSearchBody : Json :=
  .obj [("esearchresult", .obj [("idlist", .arr [.str "111", .str "222"])])]

def exSummaryBody : Json :=
  .obj [("result",
    .obj [("111", .obj [("title", .str "Paper One"), ("pubdate", .str "2020 Jan")]),
          ("222", .obj [("title", .str "Paper Two")])])]

def exWorld : World :=
  ⟨⟨200, .ok exSearchBody⟩, ⟨200, .ok exSummaryBody⟩⟩

def exPapers : List Paper :=
  [[("PubmedID", Json.str "111"),
    ("Title", Json.str "Paper One"),
    ("Publication Date", Json.str "2020 Jan"),
    ("Non-academic Author(s)", Json.str "Heuristic not implemented"),
    ("Company Affiliation(s)", Json.str "Heuristic not implemented"),
    ("Corresponding Author Email", Json.str "Not available")],
   [("PubmedID", Json.str "222"),
    ("Title", Json.str "Paper Two"),
    ("Publication Date", Json.str ""),
    ("Non-academic Author(s)", Json.str "Heuristic not implemented"),
    ("Company Affiliation(s)", Json.str "Heuristic not implemented"),
    ("Corresponding Author Email", Json.str "Not available")]]

/-- An everything-allowed, initially empty file system. -/
def exFS : FS := ⟨fun _ => true, fun _ => none⟩

def elevenIds : List String :=
  ["1", "2", "3", "4", "5", "6", "7", "8", "9", "10", "11"]

/-- A world whose search response reports eleven identifiers (a server that
ignores the `retmax` parameter). -/
def w11 : World :=
  ⟨⟨200, .ok (.obj [("esearchresult", .obj [("idlist", .arr (elevenIds.map .str))])])⟩,
   ⟨200, .ok (.obj [])⟩⟩

/-- The eleven records `fetch_papers` builds from `w11`. -/
def papers11 : List Paper :=
  elevenIds.map (fun id =>
    [("PubmedID", Json.str id),
     ("Title", Json.str ""),
     ("Publication Date", Json.str ""),
     ("Non-academic Author(s)", Json.str "Heuristic not implemented"),
     ("Company Affiliation(s)", Json.str "Heuristic not implemented"),
     ("Corresponding Author Email", Json.str "Not available")])

/-- A world whose search endpoint answers 404. -/
def wErr : World := ⟨⟨404, .ok Json.null⟩, ⟨200, .ok Json.null⟩⟩

/-- A file system on which no path can be opened for writing. -/
def fsRO : FS := ⟨fun _ => false, fun _ => none⟩

/-! ## Helper lemmas about `exceptMap` -/

theorem exceptMap_ok_length {f : α → Except String β} :
    ∀ {xs : List α} {ys : List β}, exceptMap f xs = .ok ys → ys.length = xs.length := by
  intro xs
  induction xs with
  | nil =>
    intro ys h
    simp only [exceptMap, Except.ok.injEq] at h
    simp [← h]
  | cons x xs ih =>
    intro ys h
    simp only [exceptMap] at h
    cases hf : f x with
    | error e => rw [hf] at h; exact absurd h (by simp)
    | ok y =>
      rw [hf] at h
      cases hm : exceptMap f xs with
      | error e => rw [hm] at h; exact absurd h (by simp)
      | ok ys2 =>
        rw [hm] at h
        simp only [Except.ok.injEq] at h
        subst h
        simp [ih hm]

theorem exceptMap_ok_get {f : α → Except String β} :
    ∀ {xs : List α} {ys : List β}, exceptMap f xs = .ok ys →
      ∀ (i : Nat) (hi : i < xs.length) (hj : i < ys.length),
        f (xs.get ⟨i, hi⟩) = .ok (ys.get ⟨i, hj⟩) := by
  intro xs
  induction xs with
  | nil => intro ys h i hi hj; exact absurd hi (by simp)
  | cons x xs ih =>
    intro ys h i hi hj
    simp only [exceptMap] at h
    cases hf : f x with
    | error e => rw [hf] at h; exact absurd h (by simp)
    | ok y =>
      rw [hf] at h
      cases hm : exceptMap f xs with
      | error e => rw [hm] at h; exact absurd h (by simp)
      | ok ys2 =>
        rw [hm] at h
        simp only [Except.ok.injEq] at h
        subst h
        cases i with
        | zero => simpa using hf
        | succ n =>
          simp only [List.get_cons_succ]
          exact ih hm n (by simpa using hi) (by simpa using hj)

theorem exceptMap_ok_mem {f : α → Except String β} :
    ∀ {xs : List α} {ys : List β}, exceptMap f xs = .ok ys →
      ∀ y ∈ ys, ∃ x ∈ xs, f x = .ok y := by
  intro xs
  induction xs with
  | nil =>
    intro ys h y hy
    simp only [exceptMap, Except.ok.injEq] at h
    subst h
    exact absurd hy (by simp)
  | cons x xs ih =>
    intro ys h y hy
    simp only [exceptMap] at h
    cases hf : f x with
    | error e => rw [hf] at h; exact absurd h (by simp)
    | ok y2 =>
      rw [hf] at h
      cases hm : exceptMap f xs with
      | error e => rw [hm] at h; exact absurd h (by simp)
      | ok ys2 =>
        rw [hm] at h
        simp only [Except.ok.injEq] at h
        subst h
        rcases List.mem_cons.mp hy with h1 | h2
        · exact ⟨x, List.mem_cons_self x xs, h1 ▸ hf⟩
        · obtain ⟨x2, hx2, hfx2⟩ := ih hm y h2
          exact ⟨x2, List.mem_cons_of_mem x hx2, hfx2⟩

/-- `",".join` over a JSON list of strings yields exactly those strings. -/
theorem iterStrings_map_str (ids : List String) :
    iterStrings (Json.arr (ids.map Json.str)) = .ok ids := by
  induction ids with
  | nil => rfl
  | cons i ids ih =>
    simp only [iterStrings, List.map_cons, exceptMap] at ih ⊢
    rw [show (exceptMap (fun j => match j with
        | .str s => Except.ok s
        | j => Except.error ("TypeError: sequence item: expected str instance, " ++ j.pyType ++ " found"))
        (ids.map Json.str)) = Except.ok ids from ih]

/-! ## Inversion lemmas about `fetch_papers` and `mkPaper` -/

/-- A successful `mkPaper` exposes the whole lookup chain and the record. -/
theorem mkPaper_ok_detail {details_data : Json} {id : String} {p : Paper}
    (h : mkPaper details_data id = .ok p) :
    ∃ resultObj summary title pubdate,
      dictGet details_data "result" (Json.obj []) = .ok resultObj ∧
      dictGet resultObj id (Json.obj []) = .ok summary ∧
      dictGet summary "title" (Json.str "") = .ok title ∧
      dictGet summary "pubdate" (Json.str "") = .ok pubdate ∧
      p = [("PubmedID", Json.str id),
           ("Title", title),
           ("Publication Date", pubdate),
           ("Non-academic Author(s)", Json.str "Heuristic not implemented"),
           ("Company Affiliation(s)", Json.str "Heuristic not implemented"),
           ("Corresponding Author Email", Json.str "Not available")] := by
  unfold mkPaper at h
  cases h1 : dictGet details_data "result" (Json.obj []) with
  | error e => rw [h1] at h; exact absurd h (by simp)
  | ok resultObj =>
    rw [h1] at h
    dsimp only at h
    cases h2 : dictGet resultObj id (Json.obj []) with
    | error e => rw [h2] at h; exact absurd h (by simp)
    | ok summary =>
      rw [h2] at h
      dsimp only at h
      cases h3 : dictGet summary "title" (Json.str "") with
      | error e => rw [h3] at h; exact absurd h (by simp)
      | ok title =>
        rw [h3] at h
        dsimp only at h
        cases h4 : dictGet summary "pubdate" (Json.str "") with
        | error e => rw [h4] at h; exact absurd h (by simp)
        | ok pubdate =>
          rw [h4] at h
          dsimp only at h
          simp only [Except.ok.injEq] at h
          exact ⟨resultObj, summary, title, pubdate, rfl, h2, h3, h4, h.symm⟩

/-- Any record list successfully returned by `fetch_papers` either is empty
or arises from the record-building loop over the extracted identifiers. -/
theorem fetch_ok_inv {query : String} {w : World} {papers : List Paper}
    (h : (fetch_papers query w).2 = .ok papers) :
    papers = [] ∨
    ∃ ids details_data, ids ≠ [] ∧
      w.summaryResp.jsonBody = .ok details_data ∧
      exceptMap (mkPaper details_data) ids = .ok papers := by
  unfold fetch_papers at h
  cases h1 : raise_for_status w.searchResp with
  | error e => rw [h1] at h; exact absurd h (by simp)
  | ok u =>
    rw [h1] at h
    dsimp only at h
    cases h2 : w.searchResp.jsonBody with
    | error e => rw [h2] at h; exact absurd h (by simp)
    | ok search_data =>
      rw [h2] at h
      dsimp only at h
      cases h3 : extractIds search_data with
      | error e => rw [h3] at h; exact absurd h (by simp)
      | ok idsJson =>
        rw [h3] at h
        dsimp only at h
        by_cases ht : idsJson.truthy
        · rw [if_pos ht] at h
          cases h4 : iterStrings idsJson with
          | error e => rw [h4] at h; exact absurd h (by simp)
          | ok ids =>
            rw [h4] at h
            dsimp only at h
            cases h5 : raise_for_status w.summaryResp with
            | error e => rw [h5] at h; exact absurd h (by simp)
            | ok u2 =>
              rw [h5] at h
              dsimp only at h
              cases h6 : w.summaryResp.jsonBody with
              | error e => rw [h6] at h; exact absurd h (by simp)
              | ok details_data =>
                rw [h6] at h
                dsimp only at h
                by_cases hids : ids = []
                · subst hids
                  simp only [exceptMap, Except.ok.injEq] at h
                  exact Or.inl h.symm
                · exact Or.inr ⟨ids, details_data, hids, rfl, h⟩
        · rw [if_neg ht] at h
          simp only [Except.ok.injEq] at h
          exact Or.inl h.symm

/-- When the search response parses and its idlist is a JSON list of
strings, a successful fetch runs the record-building loop over exactly
those identifiers (or returns `[]` when there are none). -/
theorem fetch_ok_of_ids {query : String} {w : World} {sd : Json}
    {ids : List String} {papers : List Paper}
    (hjson : w.searchResp.jsonBody = .ok sd)
    (hids : extractIds sd = .ok (Json.arr (ids.map Json.str)))
    (hok : (fetch_papers query w).2 = .ok papers) :
    (ids = [] ∧ papers = []) ∨
    ∃ details_data,
      w.summaryResp.jsonBody = .ok details_data ∧
      exceptMap (mkPaper details_data) ids = .ok papers := by
  unfold fetch_papers at hok
  cases h1 : raise_for_status w.searchResp with
  | error e => rw [h1] at hok; exact absurd hok (by simp)
  | ok u =>
    rw [h1] at hok
    dsimp only at hok
    rw [hjson] at hok
    dsimp only at hok
    rw [hids] at hok
    dsimp only at hok
    by_cases hne : ids = []
    · subst hne
      simp only [List.map_nil, Json.truthy, List.isEmpty_nil, Bool.not_true,
        Bool.false_eq_true, if_false, Except.ok.injEq] at hok
      exact Or.inl ⟨rfl, hok.symm⟩
    · have ht : (Json.arr (ids.map Json.str)).truthy = true := by
        cases ids with
        | nil => exact absurd rfl hne
        | cons a l => rfl
      rw [if_pos ht, iterStrings_map_str ids] at hok
      dsimp only at hok
      cases h5 : raise_for_status w.summaryResp with
      | error e => rw [h5] at hok; exact absurd hok (by simp)
      | ok u2 =>
        rw [h5] at hok
        dsimp only at hok
        cases h6 : w.summaryResp.jsonBody with
        | error e => rw [h6] at hok; exact absurd hok (by simp)
        | ok details_data =>
          rw [h6] at hok
          dsimp only at hok
          exact Or.inr ⟨details_data, rfl, hok⟩

/-! ## Claim theorems -/

/-- Claim C1: for every query whose search response yields a list of N
identifiers, `fetch_papers` returns a sequence of exactly N Paper Records,
where the i-th record's `PubmedID` field equals the i-th identifier of the
list, for every position i.  (Stated for runs in which `fetch_papers`
returns a sequence at all, i.e. raises no exception.) -/
theorem C1_one_record_per_identifier_in_order
    (query : String) (w : World) (sd : Json) (ids : List String) (papers : List Paper)
    (hjson : w.searchResp.jsonBody = .ok sd)
    (hids : extractIds sd = .ok (Json.arr (ids.map Json.str)))
    (hok : (fetch_papers query w).2 = .ok papers) :
    papers.length = ids.length ∧
    ∀ (i : Nat) (hi : i < ids.length) (hp : i < papers.length),
      List.lookup "PubmedID" (papers.get ⟨i, hp⟩) = some (Json.str (ids.get ⟨i, hi⟩)) := by
  rcases fetch_ok_of_ids hjson hids hok with ⟨hids0, hpap0⟩ | ⟨dd, hdd, hmap⟩
  · subst hids0; subst hpap0
    exact ⟨rfl, fun i hi => absurd hi (by simp)⟩
  · have hlen := exceptMap_ok_length hmap
    refine ⟨hlen, fun i hi hp => ?_⟩
    have hget := exceptMap_ok_get hmap i hi hp
    obtain ⟨r, s, t, pd, _, _, _, _, hshape⟩ := mkPaper_ok_detail hget
    rw [hshape]
    simp [List.lookup]

/-- Claim C1 witness: the spec's worked example (two identifiers) run
through the theorem. -/
theorem C1_one_record_per_identifier_in_order_witness :
    (exWorld.searchResp.jsonBody = .ok exSearchBody ∧
     extractIds exSearchBody = .ok (Json.arr (["111", "222"].map Json.str)) ∧
     (fetch_papers "cancer" exWorld).2 = .ok exPapers) ∧
    (exPapers.length = 2 ∧
     List.lookup "PubmedID" (exPapers.get ⟨0, by decide⟩) = some (Json.str "111") ∧
     List.lookup "PubmedID" (exPapers.get ⟨1, by decide⟩) = some (Json.str "222")) := by
  have h := C1_one_record_per_identifier_in_order "cancer" exWorld exSearchBody
    ["111", "222"] exPapers rfl rfl rfl
  exact ⟨⟨rfl, rfl, rfl⟩, h.1, h.2 0 (by decide) (by decide), h.2 1 (by decide) (by decide)⟩

/-- Claim C3: every Paper Record returned by `fetch_papers` carries the
three constant placeholder strings in its `Non-academic Author(s)`,
`Company Affiliation(s)` and `Corresponding Author Email` fields,
independently of the input. -/
theorem C3_placeholder_fields_constant
    (query : String) (w : World) (papers : List Paper) (p : Paper)
    (hok : (fetch_papers query w).2 = .ok papers) (hp : p ∈ papers) :
    List.lookup "Non-academic Author(s)" p = some (Json.str "Heuristic not implemented") ∧
    List.lookup "Company Affiliation(s)" p = some (Json.str "Heuristic not implemented") ∧
    List.lookup "Corresponding Author Email" p = some (Json.str "Not available") := by
  rcases fetch_ok_inv hok with hnil | ⟨ids, dd, hne, hdd, hmap⟩
  · subst hnil; exact absurd hp (by simp)
  · obtain ⟨id, hid, hmk⟩ := exceptMap_ok_mem hmap p hp
    obtain ⟨r, s, t, pd, _, _, _, _, hshape⟩ := mkPaper_ok_detail hmk
    rw [hshape]
    refine ⟨?_, ?_, ?_⟩ <;> simp [List.lookup]

/-- Claim C3 witness: the worked example's first record carries the three
placeholders. -/
theorem C3_placeholder_fields_constant_witness :
    ((fetch_papers "cancer" exWorld).2 = .ok exPapers) ∧
    (List.lookup "Non-academic Author(s)" (exPapers.get ⟨0, by decide⟩) =
       some (Json.str "Heuristic not implemented") ∧
     List.lookup "Company Affiliation(s)" (exPapers.get ⟨0, by decide⟩) =
       some (Json.str "Heuristic not implemented") ∧
     List.lookup "Corresponding Author Email" (exPapers.get ⟨0, by decide⟩) =
       some (Json.str "Not available")) := by
  have h := C3_placeholder_fields_constant "cancer" exWorld exPapers
    (exPapers.get ⟨0, by decide⟩) rfl (List.get_mem _ _ _)
  exact ⟨rfl, h⟩

/-- Claim C10: every Paper Record produced by `fetch_papers` is a mapping
with exactly the six keys of `fieldnames`, in that order and no others, so
every record matches the field-name set `save_to_csv` passes to the CSV
writer. -/
theorem C10_records_have_exactly_the_six_fieldnames
    (query : String) (w : World) (papers : List Paper) (p : Paper)
    (hok : (fetch_papers query w).2 = .ok papers) (hp : p ∈ papers) :
    p.map Prod.fst = fieldnames := by
  rcases fetch_ok_inv hok with hnil | ⟨ids, dd, hne, hdd, hmap⟩
  · subst hnil; exact absurd hp (by simp)
  · obtain ⟨id, hid, hmk⟩ := exceptMap_ok_mem hmap p hp
    obtain ⟨r, s, t, pd, _, _, _, _, hshape⟩ := mkPaper_ok_detail hmk
    rw [hshape]
    rfl

/-- Claim C10 witness: the worked example's records carry exactly the six
field names. -/
theorem C10_records_have_exactly_the_six_fieldnames_witness :
    ((fetch_papers "cancer" exWorld).2 = .ok exPapers) ∧
    List.map Prod.fst (exPapers.get ⟨1, by decide⟩) = fieldnames :=
  ⟨rfl, C10_records_have_exactly_the_six_fieldnames "cancer" exWorld exPapers
    (exPapers.get ⟨1, by decide⟩) rfl (List.get_mem _ _ _)⟩

/-- Claim C4: for every identifier in the search result list, the record's
`Title` and `Publication Date` come from the summary object looked up at
`result.<id>` (with an empty mapping as default when the key is missing),
via `.get("title", "")` and `.get("pubdate", "")` with empty-string
defaults. -/
theorem C4_title_and_pubdate_from_summary_lookup
    (query : String) (w : World) (sd : Json) (ids : List String) (papers : List Paper)
    (i : Nat)
    (hjson : w.searchResp.jsonBody = .ok sd)
    (hids : extractIds sd = .ok (Json.arr (ids.map Json.str)))
    (hok : (fetch_papers query w).2 = .ok papers)
    (hi : i < ids.length) (hp : i < papers.length) :
    ∃ details_data resultObj summary title pubdate,
      w.summaryResp.jsonBody = .ok details_data ∧
      dictGet details_data "result" (Json.obj []) = .ok resultObj ∧
      dictGet resultObj (ids.get ⟨i, hi⟩) (Json.obj []) = .ok summary ∧
      dictGet summary "title" (Json.str "") = .ok title ∧
      dictGet summary "pubdate" (Json.str "") = .ok pubdate ∧
      List.lookup "Title" (papers.get ⟨i, hp⟩) = some title ∧
      List.lookup "Publication Date" (papers.get ⟨i, hp⟩) = some pubdate := by
  rcases fetch_ok_of_ids hjson hids hok with ⟨hids0, _⟩ | ⟨dd, hdd, hmap⟩
  · subst hids0; exact absurd hi (by simp)
  · have hget := exceptMap_ok_get hmap i hi hp
    obtain ⟨r, s, t, pd, hr, hs, ht, hpd, hshape⟩ := mkPaper_ok_detail hget
    refine ⟨dd, r, s, t, pd, hdd, hr, hs, ht, hpd, ?_, ?_⟩ <;>
      rw [hshape] <;> simp [List.lookup]

/-- Claim C4 witness: in the worked example, identifier `"222"` has a
summary without a `pubdate`, so its record's `Publication Date` is the
empty string while its `Title` comes from the summary. -/
theorem C4_title_and_pubdate_from_summary_lookup_witness :
    (exWorld.searchResp.jsonBody = .ok exSearchBody ∧
     extractIds exSearchBody = .ok (Json.arr (["111", "222"].map Json.str)) ∧
     (fetch_papers "cancer" exWorld).2 = .ok exPapers) ∧
    (∃ details_data resultObj summary title pubdate,
      exWorld.summaryResp.jsonBody = .ok details_data ∧
      dictGet details_data "result" (Json.obj []) = .ok resultObj ∧
      dictGet resultObj (List.get ["111", "222"] ⟨1, by decide⟩) (Json.obj []) = .ok summary ∧
      dictGet summary "title" (Json.str "") = .ok title ∧
      dictGet summary "pubdate" (Json.str "") = .ok pubdate ∧
      List.lookup "Title" (exPapers.get ⟨1, by decide⟩) = some title ∧
      List.lookup "Publication Date" (exPapers.get ⟨1, by decide⟩) = some pubdate) :=
  ⟨⟨rfl, rfl, rfl⟩,
   C4_title_and_pubdate_from_summary_lookup "cancer" exWorld exSearchBody
     ["111", "222"] exPapers 1 rfl rfl rfl (by decide) (by decide)⟩

/-- Claim C2: when the parsed search response has an absent or empty
idlist, `fetch_papers` returns the empty sequence after issuing only the
search request, and `main` logs the "no papers found" informational
message (`"No papers found for the given query."` in the source), never
invokes the sink (nothing printed, file system untouched) and exits with
code 0. -/
theorem C2_empty_idlist_no_sink
    (query : String) (file : Option String) (dbg : Bool) (w : World) (sd : Json) (fs : FS)
    (hstatus : raise_for_status w.searchResp = .ok ())
    (hjson : w.searchResp.jsonBody = .ok sd)
    (hids : extractIds sd = .ok (Json.arr [])) :
    fetch_papers query w = ([searchRequest query], .ok []) ∧
    (Script.main ⟨query, file, dbg⟩ w fs).logs =
      [(LogLevel.info, "Fetching papers for query: " ++ query),
       (LogLevel.info, "No papers found for the given query.")] ∧
    (Script.main ⟨query, file, dbg⟩ w fs).printed = [] ∧
    (Script.main ⟨query, file, dbg⟩ w fs).fs = fs ∧
    (Script.main ⟨query, file, dbg⟩ w fs).exitCode = 0 := by
  have hf : fetch_papers query w = ([searchRequest query], .ok []) := by
    unfold fetch_papers
    rw [hstatus]
    dsimp only
    rw [hjson]
    dsimp only
    rw [hids]
    rfl
  have hm : Script.main ⟨query, file, dbg⟩ w fs =
      ⟨if dbg then 10 else 20,
       [(LogLevel.info, "Fetching papers for query: " ++ query),
        (LogLevel.info, "No papers found for the given query.")], [], fs, 0⟩ := by
    unfold Script.main
    dsimp only
    rw [hf]
    rfl
  exact ⟨hf, by rw [hm], by rw [hm], by rw [hm], by rw [hm]⟩

/-- Claim C2 witness: a search response whose `esearchresult` object lacks
the `idlist` key. -/
theorem C2_empty_idlist_no_sink_witness :
    (raise_for_status (⟨200, .ok (Json.obj [("esearchresult", Json.obj [])])⟩ : Response) = .ok () ∧
     extractIds (Json.obj [("esearchresult", Json.obj [])]) = .ok (Json.arr [])) ∧
    (fetch_papers "novirus"
        ⟨⟨200, .ok (Json.obj [("esearchresult", Json.obj [])])⟩, ⟨200, .ok Json.null⟩⟩ =
      ([searchRequest "novirus"], .ok []) ∧
     (Script.main ⟨"novirus", some "out.csv", false⟩
        ⟨⟨200, .ok (Json.obj [("esearchresult", Json.obj [])])⟩, ⟨200, .ok Json.null⟩⟩ exFS).printed = [] ∧
     (Script.main ⟨"novirus", some "out.csv", false⟩
        ⟨⟨200, .ok (Json.obj [("esearchresult", Json.obj [])])⟩, ⟨200, .ok Json.null⟩⟩ exFS).exitCode = 0) := by
  have h := C2_empty_idlist_no_sink "novirus" (some "out.csv") false
    ⟨⟨200, .ok (Json.obj [("esearchresult", Json.obj [])])⟩, ⟨200, .ok Json.null⟩⟩
    (Json.obj [("esearchresult", Json.obj [])]) exFS rfl rfl rfl
  exact ⟨⟨rfl, rfl⟩, h.1, h.2.2.1, h.2.2.2.2⟩

/-! ## Claim C8: the `retmax=10` cap lives in the request, not in the code -/

/-- Claim C8 counterexample: it is not true that the sequence returned by
`fetch_papers` never has more than ten records — the code never truncates
the idlist, so a search response with eleven identifiers yields eleven
records. -/
theorem C8_counterexample_eleven_records :
    ¬ (∀ (query : String) (w : World) (papers : List Paper),
         (fetch_papers query w).2 = .ok papers → papers.length ≤ 10) := by
  intro hall
  have h := hall "q" w11 papers11 (by rfl)
  revert h
  decide

/-- Claim C8 (amended): the search request carries the parameter
`retmax=10` (the spec's "max-results"), and the returned sequence has
exactly one record per identifier in the response's idlist — hence at most
ten records whenever the response honors the requested limit. -/
theorem C8_amended_retmax_param_and_per_id_length
    (query : String) (w : World) (sd : Json) (ids : List String) (papers : List Paper)
    (hjson : w.searchResp.jsonBody = .ok sd)
    (hids : extractIds sd = .ok (Json.arr (ids.map Json.str)))
    (hok : (fetch_papers query w).2 = .ok papers) :
    ("retmax", "10") ∈ (searchRequest query).params ∧
    papers.length = ids.length ∧
    (ids.length ≤ 10 → papers.length ≤ 10) := by
  have hlen : papers.length = ids.length := by
    rcases fetch_ok_of_ids hjson hids hok with ⟨hids0, hpap0⟩ | ⟨dd, hdd, hmap⟩
    · subst hids0; subst hpap0; rfl
    · exact exceptMap_ok_length hmap
  exact ⟨by simp [searchRequest], hlen, fun h => hlen ▸ h⟩

/-- Claim C8 witness (amended form): the worked example (two identifiers,
two records, `retmax=10` in the request). -/
theorem C8_amended_retmax_param_and_per_id_length_witness :
    (exWorld.searchResp.jsonBody = .ok exSearchBody ∧
     extractIds exSearchBody = .ok (Json.arr (["111", "222"].map Json.str)) ∧
     (fetch_papers "cancer" exWorld).2 = .ok exPapers) ∧
    (("retmax", "10") ∈ (searchRequest "cancer").params ∧
     exPapers.length = (["111", "222"] : List String).length ∧
     ((["111", "222"] : List String).length ≤ 10 → exPapers.length ≤ 10)) :=
  ⟨⟨rfl, rfl, rfl⟩,
   C8_amended_retmax_param_and_per_id_length "cancer" exWorld exSearchBody
     ["111", "222"] exPapers rfl rfl rfl⟩

/-- Claim C9: two runs that differ only in the debug flag (same query, same
file argument, same HTTP responses, same file system) produce identical
logs, printed records, file system and exit code — the flag only changes
the logger's verbosity level. -/
theorem C9_debug_flag_changes_only_verbosity
    (query : String) (file : Option String) (w : World) (fs : FS) :
    (Script.main ⟨query, file, true⟩ w fs).logs =
      (Script.main ⟨query, file, false⟩ w fs).logs ∧
    (Script.main ⟨query, file, true⟩ w fs).printed =
      (Script.main ⟨query, file, false⟩ w fs).printed ∧
    (Script.main ⟨query, file, true⟩ w fs).fs =
      (Script.main ⟨query, file, false⟩ w fs).fs ∧
    (Script.main ⟨query, file, true⟩ w fs).exitCode =
      (Script.main ⟨query, file, false⟩ w fs).exitCode := by
  unfold Script.main
  dsimp only
  cases (fetch_papers query w).2 with
  | error e => exact ⟨rfl, rfl, rfl, rfl⟩
  | ok papers =>
    dsimp only
    by_cases hemp : papers.isEmpty = true
    · simp only [if_pos hemp]
      exact ⟨trivial, trivial, trivial, trivial⟩
    · simp only [if_neg hemp]
      by_cases hft : fileArgTruthy file = true
      · simp only [if_pos hft]
        cases hsave : save_to_csv papers (file.getD "") fs with
        | mk fs1 res => cases res <;> exact ⟨rfl, rfl, rfl, rfl⟩
      · simp only [if_neg hft]
        exact ⟨trivial, trivial, trivial, trivial⟩

/-- Claim C6: every exception raised during fetch (HTTP errors, JSON decode
errors, attribute/type errors while reshaping) or during the CSV write is
caught by the single outermost handler, which logs
`"An error occurred: <message>"` at error level; and the exit code is 0 on
every run, failing or not. -/
theorem C6_single_catch_all_and_exit_zero (a : Args) (w : World) (fs : FS) :
    (Script.main a w fs).exitCode = 0 ∧
    (∀ e, (fetch_papers a.query w).2 = .error e →
      (LogLevel.error, "An error occurred: " ++ e) ∈ (Script.main a w fs).logs) ∧
    (∀ (papers : List Paper) (fn : String) (e : String),
      (fetch_papers a.query w).2 = .ok papers → papers.isEmpty = false →
      a.file = some fn → (fn != "") = true →
      (save_to_csv papers fn fs).2 = .error e →
      (LogLevel.error, "An error occurred: " ++ e) ∈ (Script.main a w fs).logs) := by
  refine ⟨?_, ?_, ?_⟩
  · unfold Script.main
    dsimp only
    cases (fetch_papers a.query w).2 with
    | error e => rfl
    | ok papers =>
      dsimp only
      by_cases hemp : papers.isEmpty = true
      · simp only [if_pos hemp]
      · simp only [if_neg hemp]
        by_cases hft : fileArgTruthy a.file = true
        · simp only [if_pos hft]
          cases hsave : save_to_csv papers (a.file.getD "") fs with
          | mk fs1 res => cases res <;> rfl
        · simp only [if_neg hft]
  · intro e he
    unfold Script.main
    dsimp only
    rw [he]
    simp
  · intro papers fn e hok hemp hfile hfn hsave
    unfold Script.main
    dsimp only
    rw [hok]
    dsimp only
    rw [hfile]
    rcases hsv : save_to_csv papers fn fs with ⟨fs1, res⟩
    have hres : res = .error e := by rw [hsv] at hsave; exact hsave
    subst hres
    simp [hemp, fileArgTruthy, hfn, hsv]

/-- Claim C6 witness: a fetch failure (HTTP 404) and a write failure
(unwritable path) both end up in the log, with exit code 0. -/
theorem C6_single_catch_all_and_exit_zero_witness :
    ((fetch_papers "q" wErr).2 = .error "404 Client Error for url" ∧
     (fetch_papers "cancer" exWorld).2 = .ok exPapers ∧
     exPapers.isEmpty = false ∧
     (save_to_csv exPapers "out.csv" fsRO).2 =
       .error "[Errno 13] Permission denied: out.csv") ∧
    ((Script.main ⟨"q", none, false⟩ wErr exFS).exitCode = 0 ∧
     (LogLevel.error, "An error occurred: " ++ "404 Client Error for url") ∈
       (Script.main ⟨"q", none, false⟩ wErr exFS).logs ∧
     (LogLevel.error, "An error occurred: " ++ "[Errno 13] Permission denied: out.csv") ∈
       (Script.main ⟨"cancer", some "out.csv", false⟩ exWorld fsRO).logs) :=
  ⟨⟨rfl, rfl, rfl, rfl⟩,
   (C6_single_catch_all_and_exit_zero ⟨"q", none, false⟩ wErr exFS).1,
   (C6_single_catch_all_and_exit_zero ⟨"q", none, false⟩ wErr exFS).2.1
     "404 Client Error for url" rfl,
   (C6_single_catch_all_and_exit_zero ⟨"cancer", some "out.csv", false⟩ exWorld fsRO).2.2
     exPapers "out.csv" "[Errno 13] Permission denied: out.csv" rfl rfl rfl rfl rfl⟩

/-- Claim C7: when the search HTTP call returns an error status (4xx/5xx,
the statuses `raise_for_status` raises for), the run logs the error and
terminates with exit code 0 having issued no further request and written
no file: the file system is returned unchanged and nothing is printed. -/
theorem C7_search_http_failure_writes_nothing (a : Args) (w : World) (fs : FS)
    (h4 : 400 ≤ w.searchResp.status) (h5 : w.searchResp.status ≤ 599) :
    ∃ e, fetch_papers a.query w = ([searchRequest a.query], .error e) ∧
      (Script.main a w fs).fs = fs ∧
      (Script.main a w fs).printed = [] ∧
      (LogLevel.error, "An error occurred: " ++ e) ∈ (Script.main a w fs).logs ∧
      (Script.main a w fs).exitCode = 0 := by
  have hrs : ∃ e, raise_for_status w.searchResp = .error e := by
    unfold raise_for_status
    by_cases h1 : 400 ≤ w.searchResp.status ∧ w.searchResp.status ≤ 499
    · rw [if_pos h1]; exact ⟨_, rfl⟩
    · rw [if_neg h1]
      have h2 : 500 ≤ w.searchResp.status ∧ w.searchResp.status ≤ 599 := by omega
      rw [if_pos h2]; exact ⟨_, rfl⟩
  obtain ⟨e, he⟩ := hrs
  have hf : fetch_papers a.query w = ([searchRequest a.query], .error e) := by
    unfold fetch_papers; rw [he]
  have hm : Script.main a w fs =
      ⟨if a.debug then 10 else 20,
       [(LogLevel.info, "Fetching papers for query: " ++ a.query),
        (LogLevel.error, "An error occurred: " ++ e)], [], fs, 0⟩ := by
    unfold Script.main
    dsimp only
    rw [hf]
    rfl
  exact ⟨e, hf, by rw [hm], by rw [hm], by rw [hm]; simp, by rw [hm]⟩

/-- Claim C7 witness: the 404 world leaves the file system untouched. -/
theorem C7_search_http_failure_writes_nothing_witness :
    (400 ≤ wErr.searchResp.status ∧ wErr.searchResp.status ≤ 599) ∧
    (∃ e, fetch_papers "q" wErr = ([searchRequest "q"], .error e) ∧
      (Script.main ⟨"q", some "out.csv", false⟩ wErr exFS).fs = exFS ∧
      (Script.main ⟨"q", some "out.csv", false⟩ wErr exFS).printed = [] ∧
      (LogLevel.error, "An error occurred: " ++ e) ∈
        (Script.main ⟨"q", some "out.csv", false⟩ wErr exFS).logs ∧
      (Script.main ⟨"q", some "out.csv", false⟩ wErr exFS).exitCode = 0) :=
  ⟨⟨by decide, by decide⟩,
   C7_search_http_failure_writes_nothing ⟨"q", some "out.csv", false⟩ wErr exFS
     (by decide) (by decide)⟩

/-! ## Round-trip lemmas: the parser inverts the writer -/

theorem pqb_quote_nil : parseQuotedBody ['"'] = some ([], []) := rfl

theorem pqb_quote_quote (cs : List Char) :
    parseQuotedBody ('"' :: '"' :: cs) =
      match parseQuotedBody cs with
      | none => none
      | some (f, r) => some ('"' :: f, r) := rfl

theorem pqb_quote_other (c2 : Char) (cs : List Char) (h : c2 ≠ '"') :
    parseQuotedBody ('"' :: c2 :: cs) = some ([], c2 :: cs) := by
  rw [parseQuotedBody.eq_def]
  simp [h]

theorem pqb_other (c : Char) (cs : List Char) (h : c ≠ '"') :
    parseQuotedBody (c :: cs) =
      match parseQuotedBody cs with
      | none => none
      | some (f, r) => some (c :: f, r) := by
  rw [parseQuotedBody.eq_def]
  simp [h]

theorem parseQuotedBody_escape (f : List Char) :
    ∀ rest : List Char, rest.head? ≠ some '"' →
      parseQuotedBody (escapeQuotes f ++ '"' :: rest) = some (f, rest) := by
  induction f with
  | nil =>
    intro rest hrest
    rw [show escapeQuotes [] ++ '"' :: rest = '"' :: rest from rfl]
    cases rest with
    | nil => exact pqb_quote_nil
    | cons c2 r2 =>
      have hc2 : c2 ≠ '"' := fun h => hrest (by simp [h])
      exact pqb_quote_other c2 r2 hc2
  | cons a f ih =>
    intro rest hrest
    by_cases ha : a = '"'
    · subst ha
      rw [show escapeQuotes ('"' :: f) ++ '"' :: rest =
            '"' :: '"' :: (escapeQuotes f ++ '"' :: rest) from by simp [escapeQuotes]]
      rw [pqb_quote_quote, ih rest hrest]
    · rw [show escapeQuotes (a :: f) ++ '"' :: rest =
            a :: (escapeQuotes f ++ '"' :: rest) from by simp [escapeQuotes, ha]]
      rw [pqb_other a _ ha, ih rest hrest]

theorem not_needsQuote_split {c : Char} (h : needsQuote c = false) :
    c ≠ ',' ∧ c ≠ '"' ∧ c ≠ '\r' ∧ c ≠ '\n' := by
  unfold needsQuote at h
  simp only [Bool.or_eq_false_iff, decide_eq_false_iff_not] at h
  exact ⟨h.1.1.1, h.1.1.2, h.1.2, h.2⟩

theorem csvPlain_of_not_needsQuote {c : Char} (h : needsQuote c = false) :
    csvPlain c = true := by
  obtain ⟨h1, _, h3, h4⟩ := not_needsQuote_split h
  simp [csvPlain, h1, h3, h4]

theorem takeWhile_dropWhile_append (f rest : List Char)
    (hf : ∀ c ∈ f, csvPlain c = true)
    (hr : ∀ c, rest.head? = some c → csvPlain c = false) :
    (f ++ rest).takeWhile csvPlain = f ∧ (f ++ rest).dropWhile csvPlain = rest := by
  induction f with
  | nil =>
    cases rest with
    | nil => exact ⟨rfl, rfl⟩
    | cons c r =>
      have := hr c rfl
      simp [List.takeWhile, List.dropWhile, this]
  | cons a f ih =>
    have ha : csvPlain a = true := hf a (by simp)
    have ih2 := ih (fun c hc => hf c (by simp [hc]))
    simp [List.takeWhile, List.dropWhile, ha, ih2.1, ih2.2]

theorem parseField_encode (f : List Char) (rest : List Char)
    (hr : rest.head? = some ',' ∨ rest.head? = some '\r') :
    parseField (encodeFieldChars f ++ rest) = some (f, rest) := by
  have hrq : rest.head? ≠ some '"' := by
    rcases hr with h | h <;> rw [h] <;> intro hc <;>
      exact absurd (Option.some.inj hc) (by decide)
  by_cases hq : f.any needsQuote
  · rw [encodeFieldChars, if_pos hq]
    rw [show ('"' :: (escapeQuotes f ++ ['"'])) ++ rest =
          '"' :: (escapeQuotes f ++ '"' :: rest) from by simp]
    rw [parseField, if_pos rfl]
    exact parseQuotedBody_escape f rest hrq
  · rw [encodeFieldChars, if_neg hq]
    have hnq : ∀ c ∈ f, needsQuote c = false := by
      intro c hc
      by_contra hcon
      exact hq (List.any_eq_true.mpr ⟨c, hc, by revert hcon; cases needsQuote c <;> simp⟩)
    have hf : ∀ c ∈ f, csvPlain c = true :=
      fun c hc => csvPlain_of_not_needsQuote (hnq c hc)
    have hrp : ∀ c, rest.head? = some c → csvPlain c = false := by
      intro c hc
      rcases hr with h | h <;> rw [h] at hc <;> rw [← Option.some.inj hc] <;> rfl
    have hspan := takeWhile_dropWhile_append f rest hf hrp
    cases f with
    | nil =>
      cases rest with
      | nil => simp at hr
      | cons c r =>
        have hcq : c ≠ '"' := fun h => hrq (by simp [h])
        rw [List.nil_append, parseField, if_neg hcq]
        rw [show (c :: r).takeWhile csvPlain = [] from by simpa using hspan.1,
          show (c :: r).dropWhile csvPlain = c :: r from by simpa using hspan.2]
    | cons a f2 =>
      have haq : a ≠ '"' := (not_needsQuote_split (hnq a (by simp))).2.1
      rw [List.cons_append, parseField, if_neg haq]
      rw [show a :: (f2 ++ rest) = (a :: f2) ++ rest from rfl, hspan.1, hspan.2]

theorem parseRecordAux_encode :
    ∀ (cells : List (List Char)) (rest : List Char) (fuel : Nat),
      cells ≠ [] → cells.length ≤ fuel →
      parseRecordAux fuel (encodeRecordChars cells ++ rest) = some (cells, rest) := by
  intro cells
  induction cells with
  | nil => intro rest fuel h _; exact absurd rfl h
  | cons f fs ih =>
    intro rest fuel _ hfuel
    cases fuel with
    | zero => simp at hfuel
    | succ k =>
      cases fs with
      | nil =>
        have hshape : encodeRecordChars [f] ++ rest =
            encodeFieldChars f ++ ('\r' :: '\n' :: rest) := by
          simp [encodeRecordChars, joinComma]
        rw [hshape, parseRecordAux, parseField_encode f ('\r' :: '\n' :: rest) (Or.inr rfl)]
        simp
      | cons f2 fs2 =>
        have hshape : encodeRecordChars (f :: f2 :: fs2) ++ rest =
            encodeFieldChars f ++ (',' :: (encodeRecordChars (f2 :: fs2) ++ rest)) := by
          simp [encodeRecordChars, joinComma]
        rw [hshape, parseRecordAux,
          parseField_encode f (',' :: (encodeRecordChars (f2 :: fs2) ++ rest)) (Or.inl rfl)]
        have hrec := ih rest k (by simp) (by simpa using Nat.le_of_succ_le_succ hfuel)
        simp [hrec]

theorem joinComma_length_ge :
    ∀ cells : List (List Char), cells.length ≤ (joinComma cells).length + 1
  | [] => by simp [joinComma]
  | [f] => by simp [joinComma]
  | f :: f2 :: fs => by
    have ih := joinComma_length_ge (f2 :: fs)
    simp only [joinComma, List.length_cons, List.length_append] at ih ⊢
    omega

theorem encodeRecordChars_length_ge (cells : List (List Char)) :
    cells.length ≤ (encodeRecordChars cells).length := by
  have := joinComma_length_ge cells
  simp only [encodeRecordChars, List.length_append]
  simp only [List.length_cons, List.length_nil]
  omega

theorem encodeRecordChars_ne_nil (cells : List (List Char)) :
    encodeRecordChars cells ≠ [] := by
  simp [encodeRecordChars]

theorem parseRowsAux_encode :
    ∀ (rows : List (List (List Char))) (fuel : Nat),
      (∀ r ∈ rows, r ≠ []) → rows.length < fuel →
      parseRowsAux fuel (encodeRows rows) = some rows := by
  intro rows
  induction rows with
  | nil =>
    intro fuel _ hfuel
    cases fuel with
    | zero => omega
    | succ k => simp [parseRowsAux, encodeRows]
  | cons r rs ih =>
    intro fuel hne hfuel
    cases fuel with
    | zero => omega
    | succ k =>
      have hcs : encodeRows (r :: rs) = encodeRecordChars r ++ encodeRows rs := by
        simp [encodeRows]
      have hcsne : (encodeRecordChars r ++ encodeRows rs).isEmpty = false := by
        cases hh : encodeRecordChars r with
        | nil => exact absurd hh (encodeRecordChars_ne_nil r)
        | cons a t => simp
      rw [parseRowsAux, hcs, if_neg (by simp [hcsne])]
      have hrlen : r.length ≤ (encodeRecordChars r ++ encodeRows rs).length + 1 := by
        have h1 := encodeRecordChars_length_ge r
        simp only [List.length_append]
        omega
      rw [parseRecordAux_encode r (encodeRows rs) _ (hne r (by simp)) hrlen]
      have hrec := ih k (fun x hx => hne x (by simp [hx])) (by simpa using hfuel)
      simp [hrec]

theorem encodeRows_length_ge :
    ∀ rows : List (List (List Char)), rows.length ≤ (encodeRows rows).length
  | [] => by simp [encodeRows]
  | r :: rs => by
    have ih := encodeRows_length_ge rs
    have h1 : 0 < (encodeRecordChars r).length :=
      List.length_pos.mpr (encodeRecordChars_ne_nil r)
    simp only [encodeRows, List.map_cons, List.flatten_cons, List.length_append,
      List.length_cons] at ih ⊢
    omega

/-- Re-reading a CSV file written from nonempty records yields exactly
those records. -/
theorem parseCsv_renderCsv (rows : List (List String)) (hne : ∀ r ∈ rows, r ≠ []) :
    parseCsv (renderCsv rows) = some rows := by
  unfold parseCsv renderCsv
  rw [show (String.mk (encodeRows (rows.map (fun r => r.map String.data)))).data
        = encodeRows (rows.map (fun r => r.map String.data)) from rfl]
  have hne2 : ∀ r ∈ rows.map (fun r => r.map String.data), r ≠ [] := by
    intro r hr
    obtain ⟨row, hrow, hmap⟩ := List.mem_map.mp hr
    subst hmap
    intro hnil
    exact hne row hrow (by simpa using hnil)
  have hfuel : (rows.map (fun r => r.map String.data)).length <
      (encodeRows (rows.map (fun r => r.map String.data))).length + 1 :=
    Nat.lt_succ_of_le (encodeRows_length_ge _)
  rw [parseRowsAux_encode _ _ hne2 hfuel]
  dsimp only
  rw [List.map_map]
  have h : (List.map (fun cs => String.mk cs)) ∘ (fun r : List String => r.map String.data) = id := by
    funext r
    induction r with
    | nil => rfl
    | cons s t ih => simp only [Function.comp_apply, List.map_cons] at ih ⊢; simp [ih]
  rw [h, List.map_id]

theorem dictToList_ok (p : Paper) (hk : p.map Prod.fst = fieldnames) :
    dictToList p = .ok (fieldnames.map (fun k => List.lookup k p)) := by
  unfold dictToList
  rw [if_pos ?hc]
  case hc =>
    rw [List.all_eq_true]
    intro kv hkv
    have hmem : kv.1 ∈ fieldnames := hk ▸ List.mem_map_of_mem Prod.fst hkv
    exact List.elem_eq_true_of_mem hmem

theorem rowsUntilError_ok (papers : List Paper)
    (hkeys : ∀ p ∈ papers, p.map Prod.fst = fieldnames) :
    rowsUntilError papers =
      (papers.map (fun p => (fieldnames.map (fun k => List.lookup k p)).map csvCellStr),
       none) := by
  induction papers with
  | nil => rfl
  | cons p ps ih =>
    rw [rowsUntilError, dictToList_ok p (hkeys p (by simp))]
    dsimp only
    rw [ih (fun q hq => hkeys q (by simp [hq]))]
    rfl

theorem map_lookup_eq_values :
    ∀ l : List (String × Json), (l.map Prod.fst).Nodup →
      (l.map Prod.fst).map (fun k => List.lookup k l) = l.map (fun kv => some kv.2) := by
  intro l
  induction l with
  | nil => intro _; rfl
  | cons kv l ih =>
    intro hnd
    obtain ⟨k1, v1⟩ := kv
    simp only [List.map_cons]
    have hk1 : (k1, v1).1 ∉ l.map Prod.fst := (List.nodup_cons.mp hnd).1
    have hnd2 := (List.nodup_cons.mp hnd).2
    congr 1
    · simp [List.lookup]
    · rw [← ih hnd2]
      apply List.map_congr_left
      intro k hkmem
      have hne : (k == k1) = false := by
        rw [beq_eq_false_iff_ne]
        intro h
        exact hk1 (h ▸ hkmem)
      simp [List.lookup, hne]

theorem fieldnames_nodup : fieldnames.Nodup := by decide

theorem row_eq_values (p : Paper) (hk : p.map Prod.fst = fieldnames) :
    fieldnames.map (fun k => List.lookup k p) = p.map (fun kv => some kv.2) := by
  have hnd : (List.map Prod.fst p).Nodup := by rw [hk]; exact fieldnames_nodup
  rw [← hk]
  exact map_lookup_eq_values p hnd

/-- Claim C5: for every sequence of Paper Records (six string fields under
the fixed keys), `save_to_csv` succeeds, overwrites the target path with a
file whose first row is the header carrying the six field names in table
order followed by one row per record in sequence order, and re-reading
that file with the CSV reader reproduces the header and each record's six
fields as literal strings. -/
theorem C5_csv_write_header_and_roundtrip
    (papers : List Paper) (fn : String) (fs : FS)
    (hw : fs.writable fn = true)
    (hkeys : ∀ p ∈ papers, p.map Prod.fst = fieldnames)
    (hstr : ∀ p ∈ papers, ∀ kv ∈ p, ∃ s, kv.2 = Json.str s) :
    (save_to_csv papers fn fs).2 = .ok () ∧
    (save_to_csv papers fn fs).1.content fn =
      some (renderCsv (fieldnames :: papers.map paperFields)) ∧
    parseCsv (renderCsv (fieldnames :: papers.map paperFields)) =
      some (fieldnames :: papers.map paperFields) := by
  have hrows2 :
      papers.map (fun p => (fieldnames.map (fun k => List.lookup k p)).map csvCellStr) =
        papers.map paperFields := by
    apply List.map_congr_left
    intro p hp
    rw [row_eq_values p (hkeys p hp)]
    unfold paperFields
    rw [List.map_map]
    apply List.map_congr_left
    intro kv hkv
    obtain ⟨s, hs⟩ := hstr p hp kv hkv
    simp [Function.comp, hs, csvCellStr, strVal]
  have hsave : save_to_csv papers fn fs =
      ({ fs with content := fun p =>
          if p = fn then some (renderCsv (fieldnames :: papers.map paperFields))
          else fs.content p },
       .ok ()) := by
    unfold save_to_csv
    rw [if_pos hw]
    dsimp only
    rw [rowsUntilError_ok papers hkeys]
    dsimp only
    rw [hrows2]
  refine ⟨by rw [hsave], by rw [hsave]; simp, ?_⟩
  apply parseCsv_renderCsv
  intro r hr
  rcases List.mem_cons.mp hr with h | h
  · subst h; decide
  · obtain ⟨p, hp, hmap⟩ := List.mem_map.mp h
    subst hmap
    intro hnil
    have : p = [] := by simpa [paperFields] using hnil
    subst this
    have := hkeys [] hp
    simp [fieldnames] at this

/-- Claim C5 witness: the worked example's two records round-trip through
the written CSV file. -/
theorem C5_csv_write_header_and_roundtrip_witness :
    (exFS.writable "out.csv" = true ∧
     (∀ p ∈ exPapers, p.map Prod.fst = fieldnames) ∧
     (∀ p ∈ exPapers, ∀ kv ∈ p, ∃ s, kv.2 = Json.str s)) ∧
    ((save_to_csv exPapers "out.csv" exFS).2 = .ok () ∧
     (save_to_csv exPapers "out.csv" exFS).1.content "out.csv" =
       some (renderCsv (fieldnames :: exPapers.map paperFields)) ∧
     parseCsv (renderCsv (fieldnames :: exPapers.map paperFields)) =
       some (fieldnames :: exPapers.map paperFields)) := by
  have hkeys : ∀ p ∈ exPapers, p.map Prod.fst = fieldnames := by decide
  have hstr : ∀ p ∈ exPapers, ∀ kv ∈ p, ∃ s, kv.2 = Json.str s := by
    intro p hp kv hkv
    fin_cases hp <;>
      · simp only [List.mem_cons, List.not_mem_nil, or_false] at hkv
        rcases hkv with h | h | h | h | h | h <;> subst h <;> exact ⟨_, rfl⟩
  exact ⟨⟨rfl, hkeys, hstr⟩,
    C5_csv_write_header_and_roundtrip exPapers "out.csv" exFS rfl hkeys hstr⟩
